import Mathlib

/-!
# Knowledge-graph viewer: the Graph View Controller

A shallow embedding of `src/main.js` (class `KnowledgeGraphApp`).  The two
`DataSet` collections become lists kept in insertion order, the DOM regions the
controller writes become fields of a record, and the calls it issues to the
rendering engine are appended to a command log.  Queries answered by the
rendering engine (`getConnectedNodes`, `getConnectedEdges`) and the built-in
`String.prototype.toLowerCase` are parameters.  Node sizes and edge widths are
integers, as the sliders and the canned data supply them.

Covered: `generateSampleData` and the two canned datasets, `loadGraphData`,
`updateGraphInfo`, `updateNodeSize`, `searchNode`, `showNodeInfo`,
`highlightNode` and `resetHighlight`.
-/

namespace KnowledgeGraph

/-! ## Values -/

/-- An item identifier: a number (the canned nodes) or a string (the identifiers
the collection generates for items inserted without one). -/
inductive ItemId where
  | num (n : Int)
  | str (s : String)
  deriving DecidableEq, Repr

/-- A property key of a JavaScript object: an array index or a name. -/
inductive Key where
  | index (i : Nat)
  | name (s : String)
  deriving DecidableEq, Repr

/-- The JavaScript values a `color` field can hold.  Numeric literals are kept as
the rational they denote (`0.3`, `1.0`); no arithmetic is done on them. -/
inductive JSVal where
  | undefined
  | str (s : String)
  | num (q : ℚ)
  | obj (props : List (Key × JSVal))

/-- A node as written in the canned data: `{ id, label, color, size, group }`. -/
structure Node where
  id : ItemId
  label : String
  color : JSVal
  size : Int
  group : Option Int

/-- An edge as written in the canned data: `{ from, to, label, width }`.  The
fields `from` and `to` are named `fromId` and `toId` here, `from` being a
reserved word. -/
structure EdgeInit where
  fromId : ItemId
  toId : ItemId
  label : String
  width : Int
  deriving DecidableEq

/-- An edge as stored in the edge collection: the canned fields, the identifier
given on insertion, and the `color` field the highlight code writes. -/
structure Edge where
  id : ItemId
  fromId : ItemId
  toId : ItemId
  label : String
  width : Int
  color : JSVal

/-- The value returned by the `generate…Data` functions: `{ nodes, edges }`. -/
structure SampleData where
  nodes : List Node
  edges : List EdgeInit

/-! ## Canned datasets -/

/-- The function `generateMedicalData()`. -/
def generateMedicalData : SampleData where
  nodes := [
    { id := .num 1, label := "印度医疗系统", color := .str "#ff6b6b", size := 40, group := some 1 },
    { id := .num 2, label := "公共卫生", color := .str "#4ecdc4", size := 35, group := some 1 },
    { id := .num 3, label := "私人医疗", color := .str "#45b7d1", size := 30, group := some 2 },
    { id := .num 4, label := "医疗旅游", color := .str "#96ceb4", size := 25, group := some 2 },
    { id := .num 5, label := "医学教育", color := .str "#ffeaa7", size := 30, group := some 3 },
    { id := .num 6, label := "医疗保险", color := .str "#dda0dd", size := 25, group := some 3 },
    { id := .num 7, label := "数字医疗", color := .str "#98d8c8", size := 35, group := some 4 },
    { id := .num 8, label := "远程医疗", color := .str "#f7dc6f", size := 20, group := some 4 },
    { id := .num 9, label := "人工智能", color := .str "#bb8fce", size := 25, group := some 4 },
    { id := .num 10, label := "医疗政策", color := .str "#85c1e9", size := 30, group := some 1 } ]
  edges := [
    { fromId := .num 1, toId := .num 2, label := "包含", width := 4 },
    { fromId := .num 1, toId := .num 3, label := "对比", width := 3 },
    { fromId := .num 3, toId := .num 4, label := "促进", width := 2 },
    { fromId := .num 1, toId := .num 5, label := "影响", width := 3 },
    { fromId := .num 5, toId := .num 6, label := "相关", width := 2 },
    { fromId := .num 1, toId := .num 7, label := "采用", width := 4 },
    { fromId := .num 7, toId := .num 8, label := "包含", width := 3 },
    { fromId := .num 7, toId := .num 9, label := "集成", width := 2 },
    { fromId := .num 1, toId := .num 10, label := "受制于", width := 3 },
    { fromId := .num 10, toId := .num 2, label := "指导", width := 2 } ]

/-- The function `generateTechData()`. -/
def generateTechData : SampleData where
  nodes := [
    { id := .num 1, label := "数据互操作性", color := .str "#ff6b6b", size := 40, group := some 1 },
    { id := .num 2, label := "健康信息系统", color := .str "#4ecdc4", size := 35, group := some 1 },
    { id := .num 3, label := "FHIR标准", color := .str "#45b7d1", size := 30, group := some 2 },
    { id := .num 4, label := "HL7协议", color := .str "#96ceb4", size := 25, group := some 2 },
    { id := .num 5, label := "电子病历", color := .str "#ffeaa7", size := 30, group := some 3 },
    { id := .num 6, label := "医院管理系统", color := .str "#dda0dd", size := 25, group := some 3 },
    { id := .num 7, label := "数据安全", color := .str "#98d8c8", size := 35, group := some 4 },
    { id := .num 8, label := "用户同意", color := .str "#f7dc6f", size := 20, group := some 4 },
    { id := .num 9, label := "API接口", color := .str "#bb8fce", size := 25, group := some 2 },
    { id := .num 10, label := "云计算", color := .str "#85c1e9", size := 30, group := some 4 } ]
  edges := [
    { fromId := .num 1, toId := .num 2, label := "实现", width := 4 },
    { fromId := .num 2, toId := .num 3, label := "使用", width := 3 },
    { fromId := .num 3, toId := .num 4, label := "基于", width := 2 },
    { fromId := .num 2, toId := .num 5, label := "管理", width := 3 },
    { fromId := .num 5, toId := .num 6, label := "集成", width := 2 },
    { fromId := .num 1, toId := .num 7, label := "需要", width := 4 },
    { fromId := .num 7, toId := .num 8, label := "要求", width := 3 },
    { fromId := .num 3, toId := .num 9, label := "提供", width := 2 },
    { fromId := .num 2, toId := .num 10, label := "部署在", width := 3 },
    { fromId := .num 10, toId := .num 7, label := "提供", width := 2 } ]

/-- The function `generateSampleData(dataSource)`: the key `'cureus'` selects the medical
data, every other value the tech data. -/
def generateSampleData (dataSource : String) : SampleData :=
  if dataSource = "cureus" then generateMedicalData else generateTechData

/-! ## Object spread and the `opacity` property -/

/-- The own enumerable properties that `{ ...v }` copies: none for `undefined`
and for a number, the indexed one-character strings for a string, and the
properties themselves for an object. -/
def JSVal.spread : JSVal → List (Key × JSVal)
  | .undefined => []
  | .str s => s.toList.enum.map fun p => (Key.index p.1, JSVal.str (String.singleton p.2))
  | .num _ => []
  | .obj props => props

/-- The property `k: v` written after a spread in an object literal: it
overwrites the value of an existing key in place and is appended otherwise. -/
def setProp (k : Key) (v : JSVal) : List (Key × JSVal) → List (Key × JSVal)
  | [] => [(k, v)]
  | p :: rest => if p.1 = k then (p.1, v) :: rest else p :: setProp k v rest

/-- Reading property `k` of an object. -/
def getProp (k : Key) : List (Key × JSVal) → Option JSVal
  | [] => none
  | p :: rest => if p.1 = k then some p.2 else getProp k rest

/-- The object literal `{ ...color, opacity: q }`. -/
def withOpacity (color : JSVal) (q : ℚ) : JSVal :=
  .obj (setProp (.name "opacity") (.num q) color.spread)

/-- The `opacity` property of a color, when the color is an object that has one. -/
def JSVal.opacity : JSVal → Option JSVal
  | .obj props => getProp (.name "opacity") props
  | _ => none

/-! ## The collections -/

/-- Modelled from the spec: the `DataSet` class imported from vis-network is not
part of the repository; the glossary calls it an "ordered, uniquely-keyed
container supporting bulk clear/insert and per-id update".  This is the write of
one item under its key: an item stored under the same identifier is replaced in
place, otherwise the item is appended. -/
def DataSet.set {α : Type} (key : α → ItemId) (item : α) : List α → List α
  | [] => [item]
  | x :: xs => if key x = key item then item :: xs else x :: DataSet.set key item xs

/-- Modelled from the spec: `DataSet.get(id)` of the vis-network collection, the
item stored under `id`, if any. -/
def DataSet.get {α : Type} (key : α → ItemId) (id : ItemId) (data : List α) : Option α :=
  data.find? fun x => key x = id

/-- Modelled from the spec: "per-id update" of the vis-network `DataSet`.  Each
update item is merged into the item stored under its identifier (the update
items built by the controller carry every field, so the merge is the update item)
and inserted when no item has that identifier. -/
def DataSet.update {α : Type} (key : α → ItemId) (updates : List α) (data : List α) : List α :=
  updates.foldl (fun d item => DataSet.set key item d) data

/-- Modelled from the spec: "bulk insert" of the vis-network `DataSet` for items
that carry an identifier.  Items are inserted in order; an identifier that is
already stored raises an error, which leaves the items inserted so far. -/
def DataSet.add {α : Type} (key : α → ItemId) : List α → List α → Except (List α) (List α)
  | [], data => .ok data
  | item :: rest, data =>
    if (DataSet.get key (key item) data).isSome then .error data
    else DataSet.add key rest (data ++ [item])

/-- The stored form of a canned edge under identifier `id`; it has no `color`. -/
def Edge.ofInit (id : ItemId) (e : EdgeInit) : Edge :=
  { id := id, fromId := e.fromId, toId := e.toId, label := e.label, width := e.width,
    color := .undefined }

/-- The canned fields of a stored edge. -/
def Edge.toInit (e : Edge) : EdgeInit :=
  { fromId := e.fromId, toId := e.toId, label := e.label, width := e.width }

/-- Modelled from the spec: "bulk insert" of the vis-network `DataSet` for items
without an identifier (the canned edges).  The `k`-th item receives the
identifier `uuid k` produced by the collection's generator and is written under
it. -/
def DataSet.addEdges (uuid : Nat → ItemId) : Nat → List EdgeInit → List Edge → List Edge
  | _, [], data => data
  | k, e :: rest, data =>
    DataSet.addEdges uuid (k + 1) rest (DataSet.set Edge.id (Edge.ofInit (uuid k) e) data)

/-- The invariant of a collection: identifiers are pairwise distinct. -/
def DataSet.WF {α : Type} (key : α → ItemId) (data : List α) : Prop :=
  (data.map key).Nodup

instance {α : Type} (key : α → ItemId) (data : List α) : Decidable (DataSet.WF key data) :=
  inferInstanceAs (Decidable (data.map key).Nodup)

/-- The members of `new Set(values)`, in order of first insertion. -/
def newSet {α : Type} [DecidableEq α] (values : List α) : List α :=
  values.foldl (fun s v => if v ∈ s then s else s ++ [v]) []

/-! ## Controller state -/

/-- The messages written to the status region. -/
inductive Status where
  /-- The text `应用已初始化，请选择数据源`. -/
  | initialized
  /-- The text `正在加载 ${dataSource} 数据...`. -/
  | loading (dataSource : String)
  /-- The text `成功加载 ${nodes} 个节点和 ${edges} 条边`. -/
  | loaded (nodes edges : Nat)
  /-- The text `数据加载失败，请检查数据文件`. -/
  | loadFailed
  /-- The text `找到 ${count} 个匹配的节点`. -/
  | found (count : Nat)
  /-- The text `未找到匹配的节点`. -/
  | notFound
  deriving DecidableEq, Repr

/-- The calls the controller issues to the rendering engine. -/
inductive Command where
  /-- The call `network.selectNodes(ids)`. -/
  | selectNodes (ids : List ItemId)
  /-- The call `network.focus(id, { scale, animation })`; `id` is `nodeIds[0]`. -/
  | focus (id : Option ItemId) (scale : ℚ) (animation : Bool)
  /-- The call `setTimeout(() => network.fit(), ms)`. -/
  | fitAfter (ms : Nat)
  deriving DecidableEq

/-- The value shown for `node.group || '未分组'`. -/
inductive Community where
  | group (g : Int)
  | ungrouped
  deriving DecidableEq, Repr

/-- The content written to the node-detail region by `showNodeInfo`. -/
structure NodeDetails where
  /-- The node name, `node.label`. -/
  label : String
  /-- The node identifier, `node.id`. -/
  id : ItemId
  /-- The connection count, `connectedNodes.length`. -/
  connections : Nat
  /-- The community, `node.group || '未分组'`. -/
  community : Community
  /-- The entries `• ${label}` that are joined by `<br>`. -/
  connected : List String
  /-- The text after the entries: `<br>...` or the empty string. -/
  marker : String
  deriving DecidableEq

/-- The state the controller owns or writes: the two collections, the DOM
regions, and the log of engine calls. -/
structure App where
  nodes : List Node
  edges : List Edge
  statusText : Status
  loadingSpinner : Bool
  nodeCount : Nat
  edgeCount : Nat
  communityCount : Nat
  nodeInfo : Bool
  nodeDetails : Option NodeDetails
  commands : List Command

/-- The queries the rendering engine answers for a node identifier. -/
structure Network where
  getConnectedNodes : ItemId → List ItemId
  getConnectedEdges : ItemId → List ItemId

/-! ## Operations -/

/-- The function `updateStatus(message)`. -/
def updateStatus (message : Status) (app : App) : App :=
  { app with statusText := message }

/-- The function `showLoading(show)`. -/
def showLoading (visible : Bool) (app : App) : App :=
  { app with loadingSpinner := visible }

/-- The function `updateGraphInfo(nodeCount, edgeCount)`. -/
def updateGraphInfo (nodeCount edgeCount : Nat) (app : App) : App :=
  let groups := newSet (app.nodes.map fun node => node.group)
  { app with nodeCount := nodeCount, edgeCount := edgeCount, communityCount := groups.length }

/-- The function `loadGraphData()`; `dataSource` is the value of the data-source selector and
`uuid` the identifier generator of the edge collection. -/
def loadGraphData (uuid : Nat → ItemId) (dataSource : String) (app : App) : App :=
  let app := showLoading true app
  let app := updateStatus (.loading dataSource) app
  let sampleData := generateSampleData dataSource
  let app := { app with nodes := [] }
  let app := { app with edges := [] }
  match DataSet.add Node.id sampleData.nodes app.nodes with
  | Except.error nodes =>
    let app := { app with nodes := nodes }
    let app := updateStatus .loadFailed app
    showLoading false app
  | Except.ok nodes =>
    let app := { app with nodes := nodes }
    let app := { app with edges := DataSet.addEdges uuid 0 sampleData.edges app.edges }
    let app := updateGraphInfo sampleData.nodes.length sampleData.edges.length app
    let app := updateStatus (.loaded sampleData.nodes.length sampleData.edges.length) app
    let app := { app with commands := app.commands ++ [Command.fitAfter 1000] }
    showLoading false app

/-- The function `updateNodeSize(size)`. -/
def updateNodeSize (size : Int) (app : App) : App :=
  let updateArray := app.nodes.map fun node => { node with size := size + (node.size - 25) }
  { app with nodes := DataSet.update Node.id updateArray app.nodes }

/-- Whether the characters `s` begin with the characters `t`. -/
def startsWith : List Char → List Char → Bool
  | _, [] => true
  | [], _ :: _ => false
  | c :: s, d :: t => c == d && startsWith s t

/-- Whether `t` occurs in `s` at some position, scanning from the left. -/
def includesChars : List Char → List Char → Bool
  | [], t => startsWith [] t
  | c :: s, t => startsWith (c :: s) t || includesChars s t

/-- The method `s.includes(t)`. -/
def includes (s t : String) : Bool :=
  includesChars s.toList t.toList

/-- The function `searchNode()`; `value` is the content of the search input and `toLowerCase`
the built-in `String.prototype.toLowerCase`. -/
def searchNode (toLowerCase : String → String) (value : String) (app : App) : App :=
  let searchTerm := toLowerCase value
  if searchTerm = "" then app
  else
    let foundNodes := app.nodes.filter fun node => includes (toLowerCase node.label) searchTerm
    if foundNodes.length > 0 then
      let nodeIds := foundNodes.map fun node => node.id
      let app := { app with commands := app.commands ++ [Command.selectNodes nodeIds] }
      let app := { app with commands := app.commands ++ [Command.focus nodeIds[0]? 1.5 true] }
      updateStatus (.found foundNodes.length) app
    else
      updateStatus .notFound app

/-- The value of `node.group || '未分组'`: a missing group and the group `0` are
falsy. -/
def communityOf (group : Option Int) : Community :=
  match group with
  | some g => if g = 0 then .ungrouped else .group g
  | none => .ungrouped

/-- The function `showNodeInfo(nodeId)`.  The result is `none` when building the content
raises a `TypeError`: a listed connected identifier has no node, so reading its
`label` fails. -/
def showNodeInfo (network : Network) (nodeId : ItemId) (app : App) : Option App :=
  match DataSet.get Node.id nodeId app.nodes with
  | none => some app
  | some node =>
    let connectedNodes := network.getConnectedNodes nodeId
    let entries := (connectedNodes.take 5).mapM fun id =>
      (DataSet.get Node.id id app.nodes).map fun connectedNode => "• " ++ connectedNode.label
    match entries with
    | none => none
    | some connected =>
      let details : NodeDetails :=
        { label := node.label, id := node.id, connections := connectedNodes.length,
          community := communityOf node.group, connected := connected,
          marker := if connectedNodes.length > 5 then "<br>..." else "" }
      some { app with nodeDetails := some details, nodeInfo := true }

/-- The function `hideNodeInfo()`. -/
def hideNodeInfo (app : App) : App :=
  { app with nodeInfo := false }

/-- The function `highlightNode(nodeId)`. -/
def highlightNode (network : Network) (nodeId : ItemId) (app : App) : App :=
  let connectedNodes := network.getConnectedNodes nodeId
  let connectedEdges := network.getConnectedEdges nodeId
  let allNodes := app.nodes
  let allEdges := app.edges
  let updateNodes := allNodes.map fun node =>
    { node with
      color := if connectedNodes.contains node.id || node.id == nodeId then node.color
               else withOpacity node.color 0.3 }
  let updateEdges := allEdges.map fun edge =>
    { edge with
      color := if connectedEdges.contains edge.id then edge.color
               else withOpacity edge.color 0.3 }
  let app := { app with nodes := DataSet.update Node.id updateNodes app.nodes }
  { app with edges := DataSet.update Edge.id updateEdges app.edges }

/-- The function `resetHighlight()`. -/
def resetHighlight (app : App) : App :=
  let allNodes := app.nodes
  let allEdges := app.edges
  let updateNodes := allNodes.map fun node => { node with color := withOpacity node.color 1.0 }
  let updateEdges := allEdges.map fun edge => { edge with color := withOpacity edge.color 1.0 }
  let app := { app with nodes := DataSet.update Node.id updateNodes app.nodes }
  { app with edges := DataSet.update Edge.id updateEdges app.edges }

/-- A run of hover events: `highlightNode` once per entry, each with the answers
the engine gives at that moment. -/
def highlightAll (hovers : List (Network × ItemId)) (app : App) : App :=
  hovers.foldl (fun a h => highlightNode h.1 h.2 a) app

/-! ## Per-item rewrites and the search specification -/

/-- The size rule of `updateNodeSize` for one node. -/
def resize (size : Int) (node : Node) : Node :=
  { node with size := size + (node.size - 25) }

/-- The node rewrite of `highlightNode`. -/
def dimNode (network : Network) (nodeId : ItemId) (node : Node) : Node :=
  { node with
    color := if (network.getConnectedNodes nodeId).contains node.id || node.id == nodeId
             then node.color else withOpacity node.color 0.3 }

/-- The edge rewrite of `highlightNode`. -/
def dimEdge (network : Network) (nodeId : ItemId) (edge : Edge) : Edge :=
  { edge with
    color := if (network.getConnectedEdges nodeId).contains edge.id then edge.color
             else withOpacity edge.color 0.3 }

/-- The node rewrite of `resetHighlight`. -/
def restoreNode (node : Node) : Node :=
  { node with color := withOpacity node.color 1.0 }

/-- The edge rewrite of `resetHighlight`. -/
def restoreEdge (edge : Edge) : Edge :=
  { edge with color := withOpacity edge.color 1.0 }

/-- The nodes whose label contains the term as a substring when both are
lower-cased, in collection order (the wording of the specification). -/
def caseInsensitiveMatches (toLowerCase : String → String) (term : String)
    (nodes : List Node) : List Node :=
  nodes.filter fun node =>
    decide ((toLowerCase term).toList <:+: (toLowerCase node.label).toList)

/-! ## Example inputs -/

/-- Modelled from the spec: the rendering engine is not part of the repository;
§6 lists among its queries "query connected node/edge ids for a given node id".
For an edge collection these are the other endpoints of the edges that touch the
node, each once, and the identifiers of those edges. -/
def Network.ofEdges (edges : List Edge) : Network where
  getConnectedNodes := fun id =>
    newSet (edges.filterMap fun e =>
      if e.toId = id then some e.fromId else if e.fromId = id then some e.toId else none)
  getConnectedEdges := fun id =>
    (edges.filter fun e => e.fromId = id ∨ e.toId = id).map Edge.id

/-- The state the constructor leaves: empty collections and the start-up status;
the counters and panels are taken to be blank. -/
def initialApp : App where
  nodes := []
  edges := []
  statusText := .initialized
  loadingSpinner := false
  nodeCount := 0
  edgeCount := 0
  communityCount := 0
  nodeInfo := false
  nodeDetails := none
  commands := []

/-- An identifier generator that numbers the items it is given. -/
def countingUuid (k : Nat) : ItemId :=
  .num k

/-- The state after loading the medical data into `initialApp`. -/
def medicalApp : App :=
  loadGraphData countingUuid "cureus" initialApp

/-- The state after loading the tech data into `initialApp`. -/
def techApp : App :=
  loadGraphData countingUuid "tech" initialApp

/-- The engine's answers for the medical graph. -/
def medicalNetwork : Network :=
  Network.ofEdges medicalApp.edges

/-! ## Collection lemmas -/

section DataSetLemmas

variable {α : Type} (key : α → ItemId)

theorem DataSet.set_of_absent (item : α) :
    ∀ data : List α, (∀ x ∈ data, key x ≠ key item) → DataSet.set key item data = data ++ [item]
  | [], _ => rfl
  | x :: xs, h => by
    have hx : key x ≠ key item := h x (List.mem_cons_self x xs)
    have ih := DataSet.set_of_absent item xs fun y hy => h y (List.mem_cons_of_mem x hy)
    simp [DataSet.set, hx, ih]

theorem DataSet.set_after (item x : α) (hx : key x = key item) (xs : List α) :
    ∀ done : List α, (∀ y ∈ done, key y ≠ key item) →
      DataSet.set key item (done ++ x :: xs) = done ++ item :: xs
  | [], _ => by simp [DataSet.set, hx]
  | y :: ys, h => by
    have hy : key y ≠ key item := h y (List.mem_cons_self y ys)
    have ih := DataSet.set_after item x hx xs ys fun z hz => h z (List.mem_cons_of_mem y hz)
    simp [DataSet.set, hy, ih]

/-- Updating with the image of the stored items under a map that keeps
identifiers rewrites every item in place. -/
theorem DataSet.update_map_aux (f : α → α) (hf : ∀ x, key (f x) = key x) :
    ∀ (xs done : List α), ((done ++ xs).map key).Nodup →
      DataSet.update key (xs.map f) (done ++ xs) = done ++ xs.map f
  | [], done, _ => by simp [DataSet.update]
  | x :: xs, done, h => by
    have hdone : ∀ y ∈ done, key y ≠ key (f x) := by
      intro y hy heq
      rw [List.map_append, List.map_cons, List.nodup_append] at h
      exact h.2.2 (List.mem_map_of_mem key hy)
        (by rw [heq, hf]; exact List.mem_cons_self _ _)
    have hstep : DataSet.set key (f x) (done ++ x :: xs) = (done ++ [f x]) ++ xs := by
      rw [DataSet.set_after key (f x) x (hf x).symm xs done hdone]; simp
    have hnodup : (((done ++ [f x]) ++ xs).map key).Nodup := by
      simpa [hf] using h
    have ih := DataSet.update_map_aux f hf xs (done ++ [f x]) hnodup
    simp only [DataSet.update, List.map_cons, List.foldl_cons] at ih ⊢
    rw [hstep, ih]; simp

theorem DataSet.update_map (f : α → α) (hf : ∀ x, key (f x) = key x) (data : List α)
    (h : DataSet.WF key data) : DataSet.update key (data.map f) data = data.map f := by
  have := DataSet.update_map_aux key f hf data [] (by simpa [DataSet.WF] using h)
  simpa using this

theorem DataSet.map_key_eq (f : α → α) (hf : ∀ x, key (f x) = key x) (data : List α) :
    (data.map f).map key = data.map key := by
  simp [List.map_map, Function.comp_def, hf]

theorem DataSet.wf_map (f : α → α) (hf : ∀ x, key (f x) = key x) (data : List α)
    (h : DataSet.WF key data) : DataSet.WF key (data.map f) := by
  unfold DataSet.WF at h ⊢
  rw [DataSet.map_key_eq key f hf]; exact h

end DataSetLemmas

/-! ## Opacity lemmas -/

theorem getProp_setProp (k : Key) (v : JSVal) :
    ∀ props : List (Key × JSVal), getProp k (setProp k v props) = some v
  | [] => by simp [setProp, getProp]
  | p :: rest => by
    by_cases h : p.1 = k
    · simp [setProp, getProp, h]
    · simp [setProp, getProp, h, getProp_setProp k v rest]

theorem opacity_withOpacity (color : JSVal) (q : ℚ) :
    (withOpacity color q).opacity = some (.num q) := by
  simp [withOpacity, JSVal.opacity, getProp_setProp]

/-! ## Node sizes -/

theorem updateNodeSize_nodes (size : Int) (app : App) (h : DataSet.WF Node.id app.nodes) :
    (updateNodeSize size app).nodes = app.nodes.map (resize size) :=
  DataSet.update_map Node.id (resize size) (fun _ => rfl) app.nodes h

theorem updateNodeSize_wf (size : Int) (app : App) (h : DataSet.WF Node.id app.nodes) :
    DataSet.WF Node.id (updateNodeSize size app).nodes := by
  rw [updateNodeSize_nodes size app h]
  exact DataSet.wf_map Node.id (resize size) (fun _ => rfl) app.nodes h

theorem forall₂_map_self {α : Type} (R : α → α → Prop) (f : α → α) (h : ∀ x, R x (f x)) :
    ∀ xs : List α, List.Forall₂ R xs (xs.map f)
  | [] => List.Forall₂.nil
  | x :: xs => List.Forall₂.cons (h x) (forall₂_map_self R f h xs)

/-- C8: after `updateNodeSize(s)` the nodes are the same nodes in the same order,
each with size `s + (previous size − 25)` and with its id, label, color and
group unchanged; hence the size difference between any two nodes is kept. -/
theorem updateNodeSize_preserves_relative_sizes (s : Int) (app : App)
    (h : DataSet.WF Node.id app.nodes) :
    List.Forall₂
        (fun before after =>
          after.size = s + (before.size - 25) ∧ after.id = before.id ∧
            after.label = before.label ∧ after.color = before.color ∧
            after.group = before.group)
        app.nodes (updateNodeSize s app).nodes ∧
      ∀ i j : Fin app.nodes.length, ∀ a b : Node,
        (updateNodeSize s app).nodes[i.val]? = some a →
        (updateNodeSize s app).nodes[j.val]? = some b →
        a.size - b.size = (app.nodes.get i).size - (app.nodes.get j).size := by
  rw [updateNodeSize_nodes s app h]
  refine ⟨forall₂_map_self _ _ (fun x => ⟨rfl, rfl, rfl, rfl, rfl⟩) _, ?_⟩
  intro i j a b ha hb
  rw [List.getElem?_map, List.getElem?_eq_getElem i.isLt] at ha
  rw [List.getElem?_map, List.getElem?_eq_getElem j.isLt] at hb
  simp only [Option.map_some', Option.some.injEq] at ha hb
  subst ha; subst hb
  simp only [resize, List.get_eq_getElem]
  ring

theorem map_size_resize_eq_iff (s : Int) (l : List Node) :
    (l.map (resize s)).map Node.size = l.map Node.size ↔ s = 25 ∨ l = [] := by
  constructor
  · intro h
    cases l with
    | nil => exact Or.inr rfl
    | cons x xs =>
      left
      simp only [List.map_cons, List.cons.injEq, resize] at h
      linarith [h.1]
  · rintro (rfl | rfl)
    · simp [List.map_map, Function.comp_def, resize]
    · rfl

/-- C1, as amended: a second `updateNodeSize(s)` adds `s − 25` to the size every
node has after the first call and leaves the other fields alone, so two calls
give the sizes of one call exactly when `s = 25` or there are no nodes. -/
theorem updateNodeSize_twice (s : Int) (app : App) (h : DataSet.WF Node.id app.nodes) :
    List.Forall₂
        (fun once twice =>
          twice.size = once.size + (s - 25) ∧ twice.id = once.id ∧
            twice.label = once.label ∧ twice.color = once.color ∧ twice.group = once.group)
        (updateNodeSize s app).nodes (updateNodeSize s (updateNodeSize s app)).nodes ∧
      ((updateNodeSize s (updateNodeSize s app)).nodes.map Node.size =
          (updateNodeSize s app).nodes.map Node.size ↔ s = 25 ∨ app.nodes = []) := by
  have hwf := updateNodeSize_wf s app h
  rw [updateNodeSize_nodes s (updateNodeSize s app) hwf]
  refine ⟨forall₂_map_self _ _ (fun x => ⟨by simp only [resize]; ring, rfl, rfl, rfl, rfl⟩) _, ?_⟩
  rw [map_size_resize_eq_iff, updateNodeSize_nodes s app h]
  simp

/-- C1, witness of the amended statement on the medical data with `s = 25`. -/
theorem updateNodeSize_twice_witness :
    DataSet.WF Node.id medicalApp.nodes ∧
      ((updateNodeSize 25 (updateNodeSize 25 medicalApp)).nodes.map Node.size =
          (updateNodeSize 25 medicalApp).nodes.map Node.size ↔
        (25 : Int) = 25 ∨ medicalApp.nodes = []) :=
  ⟨by decide, (updateNodeSize_twice 25 medicalApp (by decide)).2⟩

/-- C1, counterexample: on the medical data `updateNodeSize(30)` gives the sizes
45, 40, … and a second `updateNodeSize(30)` gives 50, 45, …, not the same sizes. -/
theorem updateNodeSize_not_idempotent :
    (updateNodeSize 30 medicalApp).nodes.map Node.size =
        [45, 40, 35, 30, 35, 30, 40, 25, 30, 35] ∧
      (updateNodeSize 30 (updateNodeSize 30 medicalApp)).nodes.map Node.size =
        [50, 45, 40, 35, 40, 35, 45, 30, 35, 40] ∧
      (updateNodeSize 30 (updateNodeSize 30 medicalApp)).nodes.map Node.size ≠
        (updateNodeSize 30 medicalApp).nodes.map Node.size := by
  decide

/-- C8, witness on the medical data with base size 30. -/
theorem updateNodeSize_preserves_relative_sizes_witness :
    DataSet.WF Node.id medicalApp.nodes ∧
      List.Forall₂
        (fun before after =>
          after.size = 30 + (before.size - 25) ∧ after.id = before.id ∧
            after.label = before.label ∧ after.color = before.color ∧
            after.group = before.group)
        medicalApp.nodes (updateNodeSize 30 medicalApp).nodes :=
  ⟨by decide, (updateNodeSize_preserves_relative_sizes 30 medicalApp (by decide)).1⟩

/-! ## Highlighting -/

theorem highlightNode_nodes (network : Network) (nodeId : ItemId) (app : App)
    (h : DataSet.WF Node.id app.nodes) :
    (highlightNode network nodeId app).nodes = app.nodes.map (dimNode network nodeId) :=
  DataSet.update_map Node.id (dimNode network nodeId) (fun _ => rfl) app.nodes h

theorem highlightNode_edges (network : Network) (nodeId : ItemId) (app : App)
    (h : DataSet.WF Edge.id app.edges) :
    (highlightNode network nodeId app).edges = app.edges.map (dimEdge network nodeId) :=
  DataSet.update_map Edge.id (dimEdge network nodeId) (fun _ => rfl) app.edges h

theorem resetHighlight_nodes (app : App) (h : DataSet.WF Node.id app.nodes) :
    (resetHighlight app).nodes = app.nodes.map restoreNode :=
  DataSet.update_map Node.id restoreNode (fun _ => rfl) app.nodes h

theorem resetHighlight_edges (app : App) (h : DataSet.WF Edge.id app.edges) :
    (resetHighlight app).edges = app.edges.map restoreEdge :=
  DataSet.update_map Edge.id restoreEdge (fun _ => rfl) app.edges h

theorem highlightAll_ids (hovers : List (Network × ItemId)) :
    ∀ app : App, DataSet.WF Node.id app.nodes → DataSet.WF Edge.id app.edges →
      (highlightAll hovers app).nodes.map Node.id = app.nodes.map Node.id ∧
        (highlightAll hovers app).edges.map Edge.id = app.edges.map Edge.id := by
  induction hovers with
  | nil => intro app _ _; exact ⟨rfl, rfl⟩
  | cons hover rest ih =>
    intro app hn he
    have hn1 := highlightNode_nodes hover.1 hover.2 app hn
    have he1 := highlightNode_edges hover.1 hover.2 app he
    have kn : (highlightNode hover.1 hover.2 app).nodes.map Node.id = app.nodes.map Node.id := by
      rw [hn1]; exact DataSet.map_key_eq Node.id (dimNode hover.1 hover.2) (fun _ => rfl) _
    have ke : (highlightNode hover.1 hover.2 app).edges.map Edge.id = app.edges.map Edge.id := by
      rw [he1]; exact DataSet.map_key_eq Edge.id (dimEdge hover.1 hover.2) (fun _ => rfl) _
    have := ih (highlightNode hover.1 hover.2 app)
      (by unfold DataSet.WF; rw [kn]; exact hn) (by unfold DataSet.WF; rw [ke]; exact he)
    simpa [highlightAll, kn, ke] using this

/-- C2: after any run of `highlightNode` calls (one call included) followed by
`resetHighlight()`, the collections hold the same node and edge identifiers as
before, and every node and every edge has a color object whose `opacity` is 1.0,
whatever connected sets the engine reported. -/
theorem resetHighlight_restores_opacity (hovers : List (Network × ItemId)) (app : App)
    (hn : DataSet.WF Node.id app.nodes) (he : DataSet.WF Edge.id app.edges) :
    (resetHighlight (highlightAll hovers app)).nodes.map Node.id = app.nodes.map Node.id ∧
      (resetHighlight (highlightAll hovers app)).edges.map Edge.id = app.edges.map Edge.id ∧
      (∀ node ∈ (resetHighlight (highlightAll hovers app)).nodes,
        node.color.opacity = some (.num 1.0)) ∧
      ∀ edge ∈ (resetHighlight (highlightAll hovers app)).edges,
        edge.color.opacity = some (.num 1.0) := by
  obtain ⟨kn, ke⟩ := highlightAll_ids hovers app hn he
  have hn2 : DataSet.WF Node.id (highlightAll hovers app).nodes := by
    unfold DataSet.WF; rw [kn]; exact hn
  have he2 : DataSet.WF Edge.id (highlightAll hovers app).edges := by
    unfold DataSet.WF; rw [ke]; exact he
  rw [resetHighlight_nodes _ hn2, resetHighlight_edges _ he2]
  refine ⟨?_, ?_, ?_, ?_⟩
  · rw [DataSet.map_key_eq Node.id restoreNode (fun _ => rfl), kn]
  · rw [DataSet.map_key_eq Edge.id restoreEdge (fun _ => rfl), ke]
  · intro node hnode
    obtain ⟨x, _, rfl⟩ := List.mem_map.mp hnode
    exact opacity_withOpacity _ _
  · intro edge hedge
    obtain ⟨x, _, rfl⟩ := List.mem_map.mp hedge
    exact opacity_withOpacity _ _

/-- C2, witness: hovering node 1 and then node 7 of the medical graph, then
leaving. -/
theorem resetHighlight_restores_opacity_witness :
    DataSet.WF Node.id medicalApp.nodes ∧ DataSet.WF Edge.id medicalApp.edges ∧
      (∀ node ∈ (resetHighlight (highlightAll
          [(medicalNetwork, .num 1), (medicalNetwork, .num 7)] medicalApp)).nodes,
        node.color.opacity = some (.num 1.0)) ∧
      ∀ edge ∈ (resetHighlight (highlightAll
          [(medicalNetwork, .num 1), (medicalNetwork, .num 7)] medicalApp)).edges,
        edge.color.opacity = some (.num 1.0) :=
  ⟨by decide, by decide,
    (resetHighlight_restores_opacity [(medicalNetwork, .num 1), (medicalNetwork, .num 7)]
      medicalApp (by decide) (by decide)).2.2⟩

/-- C9: after `highlightNode(n)` the collections hold the same items in the same
order; `n`, the nodes in its connected-node set and the edges in its
connected-edge set keep exactly their color, and every other node and edge has a
color object whose `opacity` is 0.3. -/
theorem highlightNode_dims_unconnected (network : Network) (n : ItemId) (app : App)
    (hn : DataSet.WF Node.id app.nodes) (he : DataSet.WF Edge.id app.edges) :
    List.Forall₂
        (fun before after =>
          after.id = before.id ∧
            (before.id = n ∨ before.id ∈ network.getConnectedNodes n →
              after.color = before.color) ∧
            (¬(before.id = n ∨ before.id ∈ network.getConnectedNodes n) →
              after.color.opacity = some (.num 0.3)))
        app.nodes (highlightNode network n app).nodes ∧
      List.Forall₂
        (fun before after =>
          after.id = before.id ∧
            (before.id ∈ network.getConnectedEdges n → after.color = before.color) ∧
            (before.id ∉ network.getConnectedEdges n →
              after.color.opacity = some (.num 0.3)))
        app.edges (highlightNode network n app).edges := by
  rw [highlightNode_nodes network n app hn, highlightNode_edges network n app he]
  constructor
  · refine forall₂_map_self _ _ (fun x => ⟨rfl, ?_, ?_⟩) _
    · intro hx
      have : ((network.getConnectedNodes n).contains x.id || x.id == n) = true := by
        rcases hx with hx | hx <;> simp [hx]
      simp only [dimNode, this, ↓reduceIte]
    · intro hx
      have : ((network.getConnectedNodes n).contains x.id || x.id == n) = false := by
        simp only [not_or] at hx
        simp [hx.1, hx.2]
      simp only [dimNode, this, Bool.false_eq_true, ↓reduceIte, opacity_withOpacity]
  · refine forall₂_map_self _ _ (fun x => ⟨rfl, ?_, ?_⟩) _
    · intro hx
      simp [dimEdge, hx]
    · intro hx
      simp [dimEdge, hx, opacity_withOpacity]

/-- C9, witness: hovering node 7 of the medical graph. -/
theorem highlightNode_dims_unconnected_witness :
    DataSet.WF Node.id medicalApp.nodes ∧ DataSet.WF Edge.id medicalApp.edges ∧
      List.Forall₂
        (fun before after =>
          after.id = before.id ∧
            (before.id ∈ medicalNetwork.getConnectedEdges (.num 7) →
              after.color = before.color) ∧
            (before.id ∉ medicalNetwork.getConnectedEdges (.num 7) →
              after.color.opacity = some (.num 0.3)))
        medicalApp.edges (highlightNode medicalNetwork (.num 7) medicalApp).edges :=
  ⟨by decide, by decide,
    (highlightNode_dims_unconnected medicalNetwork (.num 7) medicalApp (by decide)
      (by decide)).2⟩

/-! ## Loading -/

theorem DataSet.get_of_absent {α : Type} (key : α → ItemId) (id : ItemId) :
    ∀ data : List α, id ∉ data.map key → DataSet.get key id data = none := by
  intro data h
  simp only [DataSet.get, List.find?_eq_none, decide_eq_true_eq]
  intro x hx heq
  exact h (heq ▸ List.mem_map_of_mem key hx)

theorem DataSet.add_fresh {α : Type} (key : α → ItemId) :
    ∀ (items data : List α), ((data ++ items).map key).Nodup →
      DataSet.add key items data = .ok (data ++ items)
  | [], data, _ => by simp [DataSet.add]
  | item :: rest, data, h => by
    have habsent : key item ∉ data.map key := by
      intro hmem
      rw [List.map_append, List.map_cons, List.nodup_append] at h
      exact h.2.2 hmem (List.mem_cons_self _ _)
    have ih := DataSet.add_fresh key rest (data ++ [item]) (by simpa using h)
    simp [DataSet.add, DataSet.get_of_absent key (key item) data habsent, ih]

theorem DataSet.addEdges_fresh (uuid : Nat → ItemId) (hinj : Function.Injective uuid) :
    ∀ (es : List EdgeInit) (k : Nat) (data : List Edge),
      (∀ d ∈ data, ∀ j, k ≤ j → d.id ≠ uuid j) →
      DataSet.addEdges uuid k es data =
        data ++ (es.enumFrom k).map fun p => Edge.ofInit (uuid p.1) p.2
  | [], _, data, _ => by simp [DataSet.addEdges]
  | e :: rest, k, data, h => by
    have hset : DataSet.set Edge.id (Edge.ofInit (uuid k) e) data =
        data ++ [Edge.ofInit (uuid k) e] :=
      DataSet.set_of_absent Edge.id _ data fun d hd => h d hd k (Nat.le_refl k)
    have hnext : ∀ d ∈ data ++ [Edge.ofInit (uuid k) e], ∀ j, k + 1 ≤ j → d.id ≠ uuid j := by
      intro d hd j hj
      rcases List.mem_append.mp hd with hd | hd
      · exact h d hd j (Nat.le_of_succ_le hj)
      · rw [List.mem_singleton.mp hd]
        intro heq
        have : k = j := hinj heq
        omega
    have ih := DataSet.addEdges_fresh uuid hinj rest (k + 1) _ hnext
    simp [DataSet.addEdges, hset, ih, List.enumFrom_cons]

theorem generateSampleData_nodup (dataSource : String) :
    ((generateSampleData dataSource).nodes.map Node.id).Nodup := by
  unfold generateSampleData
  split <;> decide

theorem generateSampleData_lengths (dataSource : String) :
    (generateSampleData dataSource).nodes.length = 10 ∧
      (generateSampleData dataSource).edges.length = 10 := by
  unfold generateSampleData
  split <;> exact ⟨rfl, rfl⟩

/-- What a load leaves in the two collections and the DOM regions. -/
theorem loadGraphData_eq (uuid : Nat → ItemId) (hinj : Function.Injective uuid)
    (dataSource : String) (app : App) :
    loadGraphData uuid dataSource app =
      { app with
        nodes := (generateSampleData dataSource).nodes
        edges := (generateSampleData dataSource).edges.enum.map
          fun p => Edge.ofInit (uuid p.1) p.2
        statusText := .loaded (generateSampleData dataSource).nodes.length
          (generateSampleData dataSource).edges.length
        loadingSpinner := false
        nodeCount := (generateSampleData dataSource).nodes.length
        edgeCount := (generateSampleData dataSource).edges.length
        communityCount :=
          (newSet ((generateSampleData dataSource).nodes.map Node.group)).length
        commands := app.commands ++ [Command.fitAfter 1000] } := by
  have hadd := DataSet.add_fresh Node.id (generateSampleData dataSource).nodes []
    (by simpa using generateSampleData_nodup dataSource)
  have hedges := DataSet.addEdges_fresh uuid hinj (generateSampleData dataSource).edges 0 []
    (by simp)
  simp only [List.nil_append] at hadd hedges
  simp only [loadGraphData, showLoading, updateStatus, updateGraphInfo, hadd, hedges, List.enum]

theorem map_toInit_enum (uuid : Nat → ItemId) :
    ∀ (es : List EdgeInit) (k : Nat),
      ((es.enumFrom k).map fun p => Edge.ofInit (uuid p.1) p.2).map Edge.toInit = es
  | [], _ => rfl
  | e :: rest, k => by
    simp only [List.enumFrom_cons, List.map_cons, map_toInit_enum uuid rest (k + 1)]
    rfl

/-- C4: whatever the collections held and whatever the source key, a load leaves
in the node collection exactly the nodes of the dataset `generateSampleData`
selects and in the edge collection exactly its edges (each stored under the
identifier generated for it, with no color yet), reports success, and the key
`'cureus'` selects the medical data while every other key selects the tech data. -/
theorem loadGraphData_replaces_dataset (uuid : Nat → ItemId) (hinj : Function.Injective uuid)
    (dataSource : String) (app : App) :
    (loadGraphData uuid dataSource app).nodes = (generateSampleData dataSource).nodes ∧
      (loadGraphData uuid dataSource app).edges =
        ((generateSampleData dataSource).edges.enum.map fun p => Edge.ofInit (uuid p.1) p.2) ∧
      (loadGraphData uuid dataSource app).edges.map Edge.toInit =
        (generateSampleData dataSource).edges ∧
      (loadGraphData uuid dataSource app).statusText = .loaded 10 10 ∧
      (loadGraphData uuid dataSource app).loadingSpinner = false ∧
      (dataSource = "cureus" → generateSampleData dataSource = generateMedicalData) ∧
      (dataSource ≠ "cureus" → generateSampleData dataSource = generateTechData) := by
  rw [loadGraphData_eq uuid hinj dataSource app]
  obtain ⟨hn, he⟩ := generateSampleData_lengths dataSource
  refine ⟨rfl, rfl, map_toInit_enum uuid _ 0, ?_, rfl, ?_, ?_⟩
  · simp only [hn, he]
  · intro h; simp [generateSampleData, h]
  · intro h; simp [generateSampleData, h]

theorem countingUuid_injective : Function.Injective countingUuid := by
  intro a b h
  simpa [countingUuid] using h

/-- C4, witness: loading the key `'tech'` over the loaded medical data. -/
theorem loadGraphData_replaces_dataset_witness :
    Function.Injective countingUuid ∧
      (loadGraphData countingUuid "tech" medicalApp).nodes =
        (generateSampleData "tech").nodes ∧
      (loadGraphData countingUuid "tech" medicalApp).edges.map Edge.toInit =
        (generateSampleData "tech").edges :=
  ⟨countingUuid_injective,
    (loadGraphData_replaces_dataset countingUuid countingUuid_injective "tech" medicalApp).1,
    (loadGraphData_replaces_dataset countingUuid countingUuid_injective "tech" medicalApp).2.2.1⟩

theorem newSet_aux {α : Type} [DecidableEq α] :
    ∀ (values acc : List α), acc.Nodup →
      (values.foldl (fun s v => if v ∈ s then s else s ++ [v]) acc).Nodup ∧
        (values.foldl (fun s v => if v ∈ s then s else s ++ [v]) acc).toFinset =
          acc.toFinset ∪ values.toFinset
  | [], acc, h => by simp [h]
  | v :: rest, acc, h => by
    by_cases hv : v ∈ acc
    · have ih := newSet_aux rest acc h
      simp only [List.foldl_cons, hv, ↓reduceIte, List.toFinset_cons]
      refine ⟨ih.1, ?_⟩
      rw [ih.2]
      ext x
      simp only [Finset.mem_union, List.mem_toFinset, Finset.mem_insert]
      constructor
      · rintro (hx | hx)
        · exact Or.inl hx
        · exact Or.inr (Or.inr hx)
      · rintro (hx | rfl | hx)
        · exact Or.inl hx
        · exact Or.inl hv
        · exact Or.inr hx
    · have hnodup : (acc ++ [v]).Nodup := by
        rw [List.nodup_append]
        refine ⟨h, List.nodup_singleton v, ?_⟩
        intro x hx hx1
        rw [List.mem_singleton] at hx1
        exact hv (hx1 ▸ hx)
      have ih := newSet_aux rest (acc ++ [v]) hnodup
      simp only [List.foldl_cons, hv, ↓reduceIte, List.toFinset_cons]
      refine ⟨ih.1, ?_⟩
      rw [ih.2]
      ext x
      simp only [Finset.mem_union, List.mem_toFinset, Finset.mem_insert, List.mem_append,
        List.mem_singleton]
      tauto

/-- The size of `new Set(values)` is the number of distinct values. -/
theorem newSet_length {α : Type} [DecidableEq α] (values : List α) :
    (newSet values).length = values.toFinset.card := by
  obtain ⟨hnodup, hset⟩ := newSet_aux values [] List.nodup_nil
  unfold newSet
  rw [← List.toFinset_card_of_nodup hnodup, hset]
  simp

/-- C5: after a load with any source key the node counter shows the number of
nodes in the node collection, the edge counter the number of edges in the edge
collection and the community counter the number of distinct group values of the
nodes; whichever dataset the key selects, these are 10, 10 and 4, the groups
being 1, 2, 3 and 4. -/
theorem loadGraphData_counts (uuid : Nat → ItemId) (hinj : Function.Injective uuid)
    (dataSource : String) (app : App) :
    (loadGraphData uuid dataSource app).nodeCount =
        (loadGraphData uuid dataSource app).nodes.length ∧
      (loadGraphData uuid dataSource app).edgeCount =
        (loadGraphData uuid dataSource app).edges.length ∧
      (loadGraphData uuid dataSource app).communityCount =
        ((loadGraphData uuid dataSource app).nodes.map Node.group).toFinset.card ∧
      (loadGraphData uuid dataSource app).nodeCount = 10 ∧
      (loadGraphData uuid dataSource app).edgeCount = 10 ∧
      (loadGraphData uuid dataSource app).communityCount = 4 ∧
      ((loadGraphData uuid dataSource app).nodes.map Node.group).toFinset =
        {some 1, some 2, some 3, some 4} := by
  rw [loadGraphData_eq uuid hinj dataSource app]
  obtain ⟨hn, he⟩ := generateSampleData_lengths dataSource
  refine ⟨rfl, ?_, newSet_length _, hn, he, ?_, ?_⟩
  · simp [List.enum]
  · show (newSet ((generateSampleData dataSource).nodes.map Node.group)).length = 4
    unfold generateSampleData
    split <;> decide
  · show ((generateSampleData dataSource).nodes.map Node.group).toFinset = _
    unfold generateSampleData
    split <;> decide

/-- C5, witness: loading the medical data. -/
theorem loadGraphData_counts_witness :
    Function.Injective countingUuid ∧
      (loadGraphData countingUuid "cureus" initialApp).nodeCount = 10 ∧
      (loadGraphData countingUuid "cureus" initialApp).edgeCount = 10 ∧
      (loadGraphData countingUuid "cureus" initialApp).communityCount = 4 :=
  ⟨countingUuid_injective,
    (loadGraphData_counts countingUuid countingUuid_injective "cureus" initialApp).2.2.2.1,
    (loadGraphData_counts countingUuid countingUuid_injective "cureus" initialApp).2.2.2.2.1,
    (loadGraphData_counts countingUuid countingUuid_injective "cureus" initialApp).2.2.2.2.2.1⟩

/-- C10: in the medical data and in the tech data the node identifiers are
pairwise distinct and both endpoints of every edge are identifiers of nodes of
the same dataset. -/
theorem canned_datasets_consistent :
    (generateMedicalData.nodes.map Node.id).Nodup ∧
      (∀ e ∈ generateMedicalData.edges,
        e.fromId ∈ generateMedicalData.nodes.map Node.id ∧
          e.toId ∈ generateMedicalData.nodes.map Node.id) ∧
      (generateTechData.nodes.map Node.id).Nodup ∧
      ∀ e ∈ generateTechData.edges,
        e.fromId ∈ generateTechData.nodes.map Node.id ∧
          e.toId ∈ generateTechData.nodes.map Node.id := by
  decide

/-! ## Search -/

theorem startsWith_iff : ∀ s t : List Char, startsWith s t = true ↔ ∃ post, s = t ++ post
  | s, [] => by simp [startsWith]
  | [], d :: t => by simp [startsWith]
  | c :: s, d :: t => by
    simp only [startsWith, Bool.and_eq_true, beq_iff_eq, startsWith_iff s t, List.cons_append,
      List.cons.injEq]
    constructor
    · rintro ⟨rfl, post, rfl⟩
      exact ⟨post, rfl, rfl⟩
    · rintro ⟨post, rfl, rfl⟩
      exact ⟨rfl, post, rfl⟩

theorem includesChars_iff : ∀ s t : List Char, includesChars s t = true ↔ t <:+: s
  | [], t => by
    simp only [includesChars, startsWith_iff]
    constructor
    · rintro ⟨post, h⟩
      exact ⟨[], post, by simpa using h.symm⟩
    · rintro ⟨pre, post, h⟩
      have ht : t = [] := by
        have h1 := List.append_eq_nil.mp h
        exact (List.append_eq_nil.mp h1.1).2
      exact ⟨[], by simp [ht]⟩
  | c :: s, t => by
    simp only [includesChars, Bool.or_eq_true, startsWith_iff, includesChars_iff s t]
    constructor
    · rintro (⟨post, h⟩ | ⟨pre, post, h⟩)
      · exact ⟨[], post, by simpa using h.symm⟩
      · exact ⟨c :: pre, post, by simp [← h]⟩
    · rintro ⟨pre, post, h⟩
      cases pre with
      | nil => exact Or.inl ⟨post, by simpa using h.symm⟩
      | cons a pre =>
        simp only [List.cons_append, List.cons.injEq] at h
        exact Or.inr ⟨pre, post, h.2⟩

theorem filter_includes_eq (toLowerCase : String → String) (value : String) (nodes : List Node) :
    (nodes.filter fun node => includes (toLowerCase node.label) (toLowerCase value)) =
      caseInsensitiveMatches toLowerCase value nodes := by
  unfold caseInsensitiveMatches
  congr 1
  funext node
  rw [Bool.eq_iff_iff]
  simp [includes, includesChars_iff]

/-- C6: for a non-empty search term, `searchNode` computes exactly the nodes
whose lower-cased label contains the lower-cased term, in collection order.  When
there are such nodes it asks the engine to select all of them and to focus the
first, and reports their number; when there are none it issues no engine call and
reports "not found", which it does in no other case. -/
theorem searchNode_selects_matches (toLowerCase : String → String) (value : String)
    (app : App) (hlower : ∀ s, toLowerCase s = "" → s = "") (hvalue : value ≠ "") :
    (caseInsensitiveMatches toLowerCase value app.nodes ≠ [] →
        (searchNode toLowerCase value app).commands =
            app.commands ++
              [Command.selectNodes
                  ((caseInsensitiveMatches toLowerCase value app.nodes).map Node.id),
                Command.focus
                  ((caseInsensitiveMatches toLowerCase value app.nodes).head?.map Node.id)
                  1.5 true] ∧
          (searchNode toLowerCase value app).statusText =
            .found (caseInsensitiveMatches toLowerCase value app.nodes).length) ∧
      (caseInsensitiveMatches toLowerCase value app.nodes = [] →
        (searchNode toLowerCase value app).commands = app.commands ∧
          (searchNode toLowerCase value app).statusText = .notFound) ∧
      ((searchNode toLowerCase value app).statusText = .notFound ↔
        caseInsensitiveMatches toLowerCase value app.nodes = []) ∧
      (searchNode toLowerCase value app).nodes = app.nodes := by
  have hterm : toLowerCase value ≠ "" := fun h => hvalue (hlower value h)
  have hfilter := filter_includes_eq toLowerCase value app.nodes
  cases hm : caseInsensitiveMatches toLowerCase value app.nodes with
  | nil =>
    rw [hm] at hfilter
    simp [searchNode, hterm, hfilter, updateStatus]
  | cons first rest =>
    rw [hm] at hfilter
    simp [searchNode, hterm, hfilter, updateStatus]

/-- C6, witness: with the medical data loaded, the term `数字` selects and
focuses node 7, labelled `数字医疗`, and reports one match. -/
theorem searchNode_selects_matches_witness :
    (∀ s : String, id s = "" → s = "") ∧ "数字" ≠ "" ∧
      caseInsensitiveMatches id "数字" medicalApp.nodes ≠ [] ∧
      (caseInsensitiveMatches id "数字" medicalApp.nodes).map Node.id = [.num 7] ∧
      (searchNode id "数字" medicalApp).commands =
          medicalApp.commands ++
            [Command.selectNodes ((caseInsensitiveMatches id "数字" medicalApp.nodes).map Node.id),
              Command.focus
                ((caseInsensitiveMatches id "数字" medicalApp.nodes).head?.map Node.id)
                1.5 true] ∧
      (searchNode id "数字" medicalApp).statusText =
        .found (caseInsensitiveMatches id "数字" medicalApp.nodes).length :=
  ⟨fun _ h => h, by decide, List.ne_nil_of_length_pos (by decide), by decide,
    (searchNode_selects_matches id "数字" medicalApp (fun _ h => h) (by decide)).1
      (List.ne_nil_of_length_pos (by decide))⟩

/-! ## Node details -/

theorem mapM_option_eq_some {α β : Type} (f : α → Option β) :
    ∀ (xs : List α), (∀ x ∈ xs, ∃ y, f x = some y) →
      ∃ ys, xs.mapM f = some ys ∧ List.Forall₂ (fun x y => f x = some y) xs ys
  | [], _ => ⟨[], rfl, List.Forall₂.nil⟩
  | x :: xs, h => by
    obtain ⟨y, hy⟩ := h x (List.mem_cons_self x xs)
    obtain ⟨ys, hys, hrel⟩ := mapM_option_eq_some f xs fun z hz => h z (List.mem_cons_of_mem x hz)
    refine ⟨y :: ys, ?_, List.Forall₂.cons hy hrel⟩
    rw [List.mapM_cons, hy, hys]
    rfl

/-- C7: for an existing node whose connected-node list has `k` entries, all of
them nodes of the collection, `showNodeInfo` completes and writes details whose
connection count is `k`, whose entries are the labels of the first `min k 5`
connected nodes in order, and whose trailing text is the truncation marker
exactly when `k > 5` (and empty otherwise). -/
theorem showNodeInfo_lists_first_five (network : Network) (nodeId : ItemId) (app : App)
    (node : Node) (hnode : DataSet.get Node.id nodeId app.nodes = some node)
    (hconnected : ∀ id ∈ network.getConnectedNodes nodeId,
      ∃ connectedNode, DataSet.get Node.id id app.nodes = some connectedNode) :
    ∃ app' details,
      showNodeInfo network nodeId app = some app' ∧ app'.nodeDetails = some details ∧
        app'.nodeInfo = true ∧
        details.connections = (network.getConnectedNodes nodeId).length ∧
        details.connected.length = min (network.getConnectedNodes nodeId).length 5 ∧
        List.Forall₂
          (fun id entry =>
            ∃ connectedNode, DataSet.get Node.id id app.nodes = some connectedNode ∧
              entry = "• " ++ connectedNode.label)
          ((network.getConnectedNodes nodeId).take 5) details.connected ∧
        (details.marker = "<br>..." ↔ (network.getConnectedNodes nodeId).length > 5) ∧
        (details.marker = "" ↔ (network.getConnectedNodes nodeId).length ≤ 5) := by
  obtain ⟨entries, hentries, hrel⟩ := mapM_option_eq_some
    (fun id => (DataSet.get Node.id id app.nodes).map fun connectedNode =>
      "• " ++ connectedNode.label)
    ((network.getConnectedNodes nodeId).take 5)
    (fun id hid => by
      obtain ⟨c, hc⟩ := hconnected id (List.mem_of_mem_take hid)
      exact ⟨"• " ++ c.label, by simp [hc]⟩)
  refine ⟨{ app with
      nodeDetails := some
        { label := node.label, id := node.id,
          connections := (network.getConnectedNodes nodeId).length,
          community := communityOf node.group, connected := entries,
          marker := if (network.getConnectedNodes nodeId).length > 5 then "<br>..." else "" }
      nodeInfo := true }, _, ?_, rfl, rfl, rfl, ?_, ?_, ?_, ?_⟩
  · simp only [showNodeInfo, hnode, hentries]
  · have := hrel.length_eq
    simp only [List.length_take] at this
    simp only [← this]
    omega
  · refine hrel.imp ?_
    intro id entry h
    cases hget : DataSet.get Node.id id app.nodes with
    | none => simp [hget] at h
    | some c => exact ⟨c, rfl, by simpa [hget] using h.symm⟩
  · by_cases hk : (network.getConnectedNodes nodeId).length > 5
    · simp [hk]
    · simp [hk]
  · by_cases hk : (network.getConnectedNodes nodeId).length > 5
    · simp [hk]
    · simp [hk]; omega

/-- C7, witness: node 1 of the medical graph has exactly five connected nodes. -/
theorem showNodeInfo_lists_first_five_witness :
    (DataSet.get Node.id (.num 1) medicalApp.nodes).isSome = true ∧
      (medicalNetwork.getConnectedNodes (.num 1)).length = 5 ∧
      ∃ app' details,
        showNodeInfo medicalNetwork (.num 1) medicalApp = some app' ∧
          app'.nodeDetails = some details ∧ app'.nodeInfo = true ∧
          details.connections = (medicalNetwork.getConnectedNodes (.num 1)).length ∧
          details.connected.length = min (medicalNetwork.getConnectedNodes (.num 1)).length 5 ∧
          List.Forall₂
            (fun id entry =>
              ∃ connectedNode, DataSet.get Node.id id medicalApp.nodes = some connectedNode ∧
                entry = "• " ++ connectedNode.label)
            ((medicalNetwork.getConnectedNodes (.num 1)).take 5) details.connected ∧
          (details.marker = "<br>..." ↔ (medicalNetwork.getConnectedNodes (.num 1)).length > 5) ∧
          (details.marker = "" ↔ (medicalNetwork.getConnectedNodes (.num 1)).length ≤ 5) :=
  ⟨by decide, by decide,
    showNodeInfo_lists_first_five medicalNetwork (.num 1) medicalApp
      { id := .num 1, label := "印度医疗系统", color := .str "#ff6b6b", size := 40,
        group := some 1 }
      rfl
      (fun id hid => Option.isSome_iff_exists.mp
        ((by decide : ∀ id ∈ medicalNetwork.getConnectedNodes (.num 1),
          (DataSet.get Node.id id medicalApp.nodes).isSome = true) id hid))⟩

/-- C3, evaluated on the medical data: node 1 is stored with the color string
`'#ff6b6b'`; after `highlightNode(1)` and `resetHighlight()` the identifiers,
labels, sizes and groups of all nodes are as before, but the color of node 1 is
the object `{0:'#', 1:'f', 2:'f', 3:'6', 4:'b', 5:'6', 6:'b', opacity: 1.0}`,
and the color of node 4, which was dimmed in between, is such an object too. -/
theorem highlight_reset_replaces_color_string :
    (medicalApp.nodes.map Node.color)[0]? = some (.str "#ff6b6b") ∧
      ((resetHighlight (highlightNode medicalNetwork (.num 1) medicalApp)).nodes.map
          Node.color)[0]? =
        some (.obj [(.index 0, .str "#"), (.index 1, .str "f"), (.index 2, .str "f"),
          (.index 3, .str "6"), (.index 4, .str "b"), (.index 5, .str "6"),
          (.index 6, .str "b"), (.name "opacity", .num 1.0)]) ∧
      (medicalApp.nodes.map Node.color)[3]? = some (.str "#96ceb4") ∧
      ((resetHighlight (highlightNode medicalNetwork (.num 1) medicalApp)).nodes.map
          Node.color)[3]? =
        some (.obj [(.index 0, .str "#"), (.index 1, .str "9"), (.index 2, .str "6"),
          (.index 3, .str "c"), (.index 4, .str "e"), (.index 5, .str "b"),
          (.index 6, .str "4"), (.name "opacity", .num 1.0)]) ∧
      (resetHighlight (highlightNode medicalNetwork (.num 1) medicalApp)).nodes.map Node.id =
        medicalApp.nodes.map Node.id ∧
      (resetHighlight (highlightNode medicalNetwork (.num 1) medicalApp)).nodes.map Node.label =
        medicalApp.nodes.map Node.label ∧
      (resetHighlight (highlightNode medicalNetwork (.num 1) medicalApp)).nodes.map Node.size =
        medicalApp.nodes.map Node.size ∧
      (resetHighlight (highlightNode medicalNetwork (.num 1) medicalApp)).nodes.map Node.group =
        medicalApp.nodes.map Node.group :=
  ⟨rfl, rfl, rfl, rfl, by decide, by decide, by decide, by decide⟩

end KnowledgeGraph
